import Mathlib

/-!
Verification of the MYNGO card engine and timing model
(`src/utils/myngo-utils.ts`), shallowly embedded in Lean.

Numbers that the source manipulates as JS numbers are modelled as
integers (`ℤ`) where the code only ever holds integers, as rationals
(`ℚ`) for the exact decimal arithmetic of the timing formulas, and as
reals (`ℝ`) for the one formula involving `log10`.  A JS value that may
be `undefined` (a missing card column, an out-of-range array read) is
modelled explicitly: card columns are `Option (List ℤ)` and grid cells
have an `undef` constructor, mirroring the fact that `marked.has(x)` is
`false` when `x` is `undefined`.  A JS `throw` is modelled as
`Except.error`.
-/

namespace Myngo

/-- The five MYNGO column letters. -/
inductive Letter
  | M
  | Y
  | N
  | G
  | O
deriving DecidableEq, Repr

/-- The `MyngoCard` record of `types/myngo.ts`: five named columns of
numbers.  Each column is an `Option` so that a malformed runtime value
with a missing (`undefined`) column is representable, as tested by
`cardToArray`. -/
structure MyngoCard where
  M : Option (List ℤ)
  Y : Option (List ℤ)
  N : Option (List ℤ)
  G : Option (List ℤ)
  O : Option (List ℤ)
deriving DecidableEq, Repr

/-- A cell of the 5x5 grid produced by `cardToArray`: a number, the
literal `WILD` marker, or the JS `undefined` produced by reading past
the end of a too-short column array. -/
inductive Cell
  | wild
  | num (n : ℤ)
  | undef
deriving DecidableEq, Repr

/-- Reading `l[i]` in JS: the element when in range, `undefined` when
out of range. -/
def cellOf (l : List ℤ) (i : ℕ) : Cell :=
  match l.get? i with
  | some v => Cell.num v
  | none => Cell.undef

/-- The N-column cell of row `row` as built by `cardToArray`: `WILD` at
row 2, otherwise `card.N[row]` above the centre and `card.N[row-1]`
below it. -/
def nCell (n : List ℤ) (row : ℕ) : Cell :=
  if row = 2 then Cell.wild
  else if row < 2 then cellOf n row
  else cellOf n (row - 1)

/-- The 5x5 row-major grid built by the loop of `cardToArray` from the
five column arrays. -/
def gridOf (m y n g o : List ℤ) : List (List Cell) :=
  (List.range 5).map (fun row =>
    [cellOf m row, cellOf y row, nCell n row, cellOf g row, cellOf o row])

/-- Embedding of `cardToArray`: throws (`Except.error`) when any of the
five columns is missing, otherwise builds the 5x5 row-major grid with
`WILD` at row 2 of the N column. -/
def cardToArray (card : MyngoCard) : Except String (List (List Cell)) :=
  match card.M, card.Y, card.N, card.G, card.O with
  | some m, some y, some n, some g, some o => Except.ok (gridOf m y n g o)
  | _, _, _, _, _ => Except.error "Invalid card structure"

/-- Reading `cardArray[row][col]` in JS; out-of-range reads give
`undefined`. -/
def getCell (arr : List (List Cell)) (row col : ℕ) : Cell :=
  (arr.getD row []).getD col Cell.undef

/-- A cell passes the win test when it is `WILD` or its number is in the
marked set; an `undefined` cell never passes (`marked.has(undefined)` is
`false`). -/
def cellSat (marked : List ℤ) (c : Cell) : Bool :=
  match c with
  | Cell.wild => true
  | Cell.num v => marked.contains v
  | Cell.undef => false

/-- A cell counts as unmarked for the near-win count when it is not
`WILD` and not in the marked set; `undefined` cells count as unmarked. -/
def cellUnmarked (marked : List ℤ) (c : Cell) : Bool :=
  match c with
  | Cell.wild => false
  | Cell.num v => !(marked.contains v)
  | Cell.undef => true

/-- Row-or-column selector used by `checkLine`. -/
inductive LineType
  | row
  | column
deriving DecidableEq, Repr

/-- Embedding of `checkLine`: every one of the five cells of the given
row or column passes the win test. -/
def checkLine (arr : List (List Cell)) (marked : List ℤ) (index : ℕ)
    (t : LineType) : Bool :=
  (List.range 5).all (fun i =>
    cellSat marked (match t with
      | LineType.row => getCell arr index i
      | LineType.column => getCell arr i index))

/-- Diagonal selector used by `checkDiagonal`. -/
inductive DiagType
  | main
  | anti
deriving DecidableEq, Repr

/-- Embedding of `checkDiagonal`. -/
def checkDiagonal (arr : List (List Cell)) (marked : List ℤ)
    (t : DiagType) : Bool :=
  (List.range 5).all (fun i =>
    cellSat marked (match t with
      | DiagType.main => getCell arr i i
      | DiagType.anti => getCell arr i (4 - i)))

/-- Kind tag of a winning pattern. -/
inductive WinPattern
  | row
  | column
  | diagonal
deriving DecidableEq, Repr

/-- Result of `checkWin`: either `{hasWin:false}` or
`{hasWin:true, pattern, line}`. -/
inductive WinResult
  | noWin
  | win (pattern : WinPattern) (line : ℕ)
deriving DecidableEq, Repr

/-- The loop body of `checkWin` once the grid has been built: rows 0-4
first, then columns 0-4, then the main diagonal, then the anti
diagonal, returning the first complete line. -/
def checkWinGrid (arr : List (List Cell)) (marked : List ℤ) : WinResult :=
  match (List.range 5).find? (fun row => checkLine arr marked row LineType.row) with
  | some row => WinResult.win WinPattern.row row
  | none =>
    match (List.range 5).find? (fun col => checkLine arr marked col LineType.column) with
    | some col => WinResult.win WinPattern.column col
    | none =>
      if checkDiagonal arr marked DiagType.main then WinResult.win WinPattern.diagonal 0
      else if checkDiagonal arr marked DiagType.anti then WinResult.win WinPattern.diagonal 1
      else WinResult.noWin

/-- Embedding of `checkWin`: early `{hasWin:false}` on an empty marked
list, `{hasWin:false}` when `cardToArray` throws (the `try`/`catch`),
otherwise the first complete line. -/
def checkWin (card : MyngoCard) (markedNumbers : List ℤ) : WinResult :=
  if markedNumbers.isEmpty then WinResult.noWin
  else
    match cardToArray card with
    | Except.error _ => WinResult.noWin
    | Except.ok arr => checkWinGrid arr markedNumbers

/-- A candidate line as enumerated by `isCloseToWin`. -/
structure LineSpec where
  kind : WinPattern
  index : ℕ
deriving DecidableEq, Repr

/-- The `lines` array of `isCloseToWin`: rows 0-4, columns 0-4, the main
diagonal and the anti diagonal. -/
def allLines : List LineSpec :=
  ((List.range 5).map (fun i => LineSpec.mk WinPattern.row i)) ++
    ((List.range 5).map (fun i => LineSpec.mk WinPattern.column i)) ++
    [LineSpec.mk WinPattern.diagonal 0, LineSpec.mk WinPattern.diagonal 1]

/-- The `unmarkedCount` loop of `isCloseToWin` for one candidate line. -/
def unmarkedCount (arr : List (List Cell)) (marked : List ℤ)
    (line : LineSpec) : ℕ :=
  (List.range 5).countP (fun i =>
    cellUnmarked marked (match line.kind with
      | WinPattern.row => getCell arr line.index i
      | WinPattern.column => getCell arr i line.index
      | WinPattern.diagonal =>
        if line.index = 0 then getCell arr i i else getCell arr i (4 - i)))

/-- Embedding of `isCloseToWin`: false on an empty marked list, false
when `cardToArray` throws (the `try`/`catch`), otherwise true exactly
when some candidate line has `unmarkedCount` equal to one. -/
def isCloseToWin (card : MyngoCard) (markedNumbers : List ℤ) : Bool :=
  if markedNumbers.isEmpty then false
  else
    match cardToArray card with
    | Except.error _ => false
    | Except.ok arr =>
      allLines.any (fun line => unmarkedCount arr markedNumbers line == 1)

/-- Embedding of `isCloseToWinLegacy`: the same computation as
`isCloseToWin` but with no `try`/`catch`, so the `cardToArray` throw
propagates to the caller as an `Except.error`. -/
def isCloseToWinLegacy (card : MyngoCard) (markedNumbers : List ℤ) :
    Except String Bool :=
  if markedNumbers.isEmpty then Except.ok false
  else
    match cardToArray card with
    | Except.error e => Except.error e
    | Except.ok arr =>
      Except.ok (allLines.any (fun line => unmarkedCount arr markedNumbers line == 1))

/-- Embedding of `calculateCallFrequency`: `round` of
`durationMinutes * 60 * 0.90` over `45 - 0.5 * players`, clamped to
`[10, 90]`. -/
def calculateCallFrequency (players durationMinutes : ℚ) : ℤ :=
  let numbersNeeded : ℚ := 45 - 0.5 * players
  let availableSeconds : ℚ := durationMinutes * 60 * 0.90
  let secondsPerCall : ℤ := round (availableSeconds / numbersNeeded)
  max 10 (min 90 secondsPerCall)

/-- Embedding of `calculateCallsNeeded`: the ceiling of
`50 - 10 * log10(players)`, clamped to `[15, 75]`.  The logarithm forces
a real-valued model. -/
noncomputable def calculateCallsNeeded (players : ℝ) : ℤ :=
  max 15 (min 75 ⌈(50 : ℝ) - 10 * Real.logb 10 players⌉)

/-- Embedding of `calculateSecondsBetweenCalls`: `round` of
`meetingMinutes * 60 * 0.85` over `callsNeeded`, clamped to `[5, 120]`. -/
def calculateSecondsBetweenCalls (meetingMinutes callsNeeded : ℚ) : ℤ :=
  let buffer : ℚ := 0.85
  let availableSeconds : ℚ := meetingMinutes * 60 * buffer
  let secondsPerCall : ℤ := round (availableSeconds / callsNeeded)
  max 5 (min 120 secondsPerCall)

/-- Embedding of `getLetterForNumber`: the column letter of a number,
throwing (`Except.error`) outside `[1, 75]`. -/
def getLetterForNumber (num : ℤ) : Except String Letter :=
  if 1 ≤ num ∧ num ≤ 15 then Except.ok Letter.M
  else if 16 ≤ num ∧ num ≤ 30 then Except.ok Letter.Y
  else if 31 ≤ num ∧ num ≤ 45 then Except.ok Letter.N
  else if 46 ≤ num ∧ num ≤ 60 then Except.ok Letter.G
  else if 61 ≤ num ∧ num ≤ 75 then Except.ok Letter.O
  else Except.error "Invalid MYNGO number"

/-- The `CalledNumber` record of `types/myngo.ts` (the fields the core
reads). -/
structure CalledNumber where
  id : String
  roomId : String
  number : ℤ
  letter : Letter
  calledAt : String

/-- Embedding of `getAvailableNumbers`: the numbers 1-75 that are not
the `number` field of any called-number record. -/
def getAvailableNumbers (calledNumbers : List CalledNumber) : List ℤ :=
  let allNumbers : List ℤ := (List.range 75).map (fun i : ℕ => (i : ℤ) + 1)
  allNumbers.filter (fun n => !((calledNumbers.map (fun c => c.number)).contains n))

/-- The splice loop of `getRandomNumbers` with the random index choices
injected: at each step the next choice, reduced modulo the number of
remaining candidates (`Math.floor(Math.random() * available.length)`
always lands in range), selects the element to remove and keep. -/
def pickNums : ℕ → List ℤ → List ℕ → List ℤ
  | 0, _, _ => []
  | Nat.succ k, available, rs =>
    available.getD (rs.headD 0 % available.length) 0 ::
      pickNums k (available.eraseIdx (rs.headD 0 % available.length)) (rs.tailD [])

/-- Embedding of `getRandomNumbers`: draw `count` distinct values from
`[lo, hi]` without replacement, then sort ascending. -/
def getRandomNumbers (lo hi count : ℕ) (rs : List ℕ) : List ℤ :=
  (pickNums count ((List.range (hi - lo + 1)).map (fun i : ℕ => (lo : ℤ) + (i : ℤ))) rs).mergeSort
    (fun a b => a ≤ b)

/-- Embedding of `generateMyngoCard`, with the random choices of each
column injected as lists of indices. -/
def generateMyngoCard (rM rY rN rG rO : List ℕ) : MyngoCard :=
  { M := some (getRandomNumbers 1 15 5 rM)
    Y := some (getRandomNumbers 16 30 5 rY)
    N := some (getRandomNumbers 31 45 4 rN)
    G := some (getRandomNumbers 46 60 5 rG)
    O := some (getRandomNumbers 61 75 5 rO) }

/-! ### Specification-side definitions

The following definitions restate the classification algorithm in the
words of the specification (grid coordinates, candidate lines, first
satisfied line) so that the code embedding above can be compared with
them.  They take the five column lists directly, as the spec describes a
well-formed card. -/

/-- Spec-side value of grid cell `(r, c)`: `none` is the free cell at
row 2 of the N column, otherwise the positional entry of the stored
column list, where the length-4 N column skips the free slot. -/
def specGridCell (m y n g o : List ℤ) (r c : ℕ) : Option ℤ :=
  if r = 2 ∧ c = 2 then none
  else
    let column :=
      match c with
      | 0 => m
      | 1 => y
      | 2 => n
      | 3 => g
      | _ => o
    let idx := if c = 2 ∧ 2 < r then r - 1 else r
    some (column.getD idx 0)

/-- Coordinates of the cells of a candidate line, in traversal order. -/
def lineCoords (line : LineSpec) : List (ℕ × ℕ) :=
  match line.kind with
  | WinPattern.row => (List.range 5).map (fun c => (line.index, c))
  | WinPattern.column => (List.range 5).map (fun r => (r, line.index))
  | WinPattern.diagonal =>
    if line.index = 0 then (List.range 5).map (fun i => (i, i))
    else (List.range 5).map (fun i => (i, 4 - i))

/-- Spec-side test of one candidate line: every cell is either the free
cell or present in the marked set. -/
def lineSatisfied (m y n g o marked : List ℤ) (line : LineSpec) : Bool :=
  (lineCoords line).all (fun p =>
    match specGridCell m y n g o p.1 p.2 with
    | none => true
    | some v => marked.contains v)

/-- Spec-side count of the cells of a candidate line that are neither
the free cell nor marked. -/
def lineUnmarked (m y n g o marked : List ℤ) (line : LineSpec) : ℕ :=
  ((lineCoords line).filter (fun p =>
    match specGridCell m y n g o p.1 p.2 with
    | none => false
    | some v => !(marked.contains v))).length

/-- Spec formulation of `classifyCard`: the first candidate line (rows
0-4, then columns 0-4, then main diagonal, then anti diagonal) whose
cells are all satisfied, tagged with its kind and index; `noWin` when no
line is fully satisfied. -/
def classifyCard (m y n g o marked : List ℤ) : WinResult :=
  match allLines.find? (lineSatisfied m y n g o marked) with
  | some line => WinResult.win line.kind line.index
  | none => WinResult.noWin

/-! ### Shared helper lemmas -/

theorem find?_congr {α : Type} {p q : α → Bool} {l : List α}
    (h : ∀ a ∈ l, p a = q a) : l.find? p = l.find? q := by
  induction l with
  | nil => rfl
  | cons a t ih =>
    have ha := h a (List.mem_cons_self a t)
    rw [List.find?_cons, List.find?_cons, ha]
    cases hq : q a
    · exact ih fun x hx => h x (List.mem_cons_of_mem a hx)
    · rfl

theorem any_congr {α : Type} {p q : α → Bool} {l : List α}
    (h : ∀ a ∈ l, p a = q a) : l.any p = l.any q := by
  induction l with
  | nil => rfl
  | cons a t ih =>
    rw [List.any_cons, List.any_cons, h a (List.mem_cons_self a t),
      ih fun x hx => h x (List.mem_cons_of_mem a hx)]

theorem length_eq_five {l : List ℤ} (h : l.length = 5) :
    ∃ a b c d e, l = [a, b, c, d, e] := by
  rcases l with _ | ⟨a, _ | ⟨b, _ | ⟨c, _ | ⟨d, _ | ⟨e, _ | ⟨f, t⟩⟩⟩⟩⟩⟩ <;>
    simp only [List.length_nil, List.length_cons] at h
  · omega
  · omega
  · omega
  · omega
  · omega
  · exact ⟨a, b, c, d, e, rfl⟩
  · omega

theorem length_eq_four {l : List ℤ} (h : l.length = 4) :
    ∃ a b c d, l = [a, b, c, d] := by
  rcases l with _ | ⟨a, _ | ⟨b, _ | ⟨c, _ | ⟨d, _ | ⟨e, t⟩⟩⟩⟩⟩ <;>
    simp only [List.length_nil, List.length_cons] at h
  · omega
  · omega
  · omega
  · omega
  · exact ⟨a, b, c, d, rfl⟩
  · omega

/-! ### Claim theorems -/

/-- C6: for every player count and meeting duration,
`calculateCallFrequency` returns the rounded value of
`meetingMinutes * 60 * 0.90` divided by `45 - 0.5 * playerCount`,
clamped to the inclusive range `[10, 90]`; in particular it returns 20
seconds for 10 players and 15 minutes. -/
theorem calculateCallFrequency_spec :
    (∀ players durationMinutes : ℚ,
      calculateCallFrequency players durationMinutes =
        max 10 (min 90 (round ((durationMinutes * 60 * 0.90) / (45 - 0.5 * players))))) ∧
    calculateCallFrequency 10 15 = 20 := by
  refine ⟨fun p m => rfl, ?_⟩
  norm_num [calculateCallFrequency, round_eq]

/-- C9: `getLetterForNumber` returns the letter of the column whose
sub-range contains the number when it lies in `[1, 75]`, and throws
exactly when it lies outside `[1, 75]`. -/
theorem getLetterForNumber_spec (n : ℤ) :
    ((1 ≤ n ∧ n ≤ 15) → getLetterForNumber n = Except.ok Letter.M) ∧
    ((16 ≤ n ∧ n ≤ 30) → getLetterForNumber n = Except.ok Letter.Y) ∧
    ((31 ≤ n ∧ n ≤ 45) → getLetterForNumber n = Except.ok Letter.N) ∧
    ((46 ≤ n ∧ n ≤ 60) → getLetterForNumber n = Except.ok Letter.G) ∧
    ((61 ≤ n ∧ n ≤ 75) → getLetterForNumber n = Except.ok Letter.O) ∧
    ((getLetterForNumber n).isOk = false ↔ (n < 1 ∨ 75 < n)) := by
  unfold getLetterForNumber
  split_ifs with h1 h2 h3 h4 h5 <;>
    refine ⟨?_, ?_, ?_, ?_, ?_, ?_⟩ <;>
      simp [Except.isOk, Except.toBool] <;> omega

/-- C9 witness: the number 7 is classified as an M number. -/
theorem getLetterForNumber_witness :
    getLetterForNumber 7 = Except.ok Letter.M :=
  (getLetterForNumber_spec 7).1 ⟨by norm_num, by norm_num⟩

/-- C10: `getAvailableNumbers` returns exactly the numbers of `[1, 75]`
that are not the `number` field of any called record, in strictly
ascending order, and on the empty input it returns all 75 numbers. -/
theorem getAvailableNumbers_spec :
    (∀ (calledNumbers : List CalledNumber) (n : ℤ),
      n ∈ getAvailableNumbers calledNumbers ↔
        1 ≤ n ∧ n ≤ 75 ∧ ∀ c ∈ calledNumbers, c.number ≠ n) ∧
    (∀ calledNumbers : List CalledNumber,
      (getAvailableNumbers calledNumbers).Sorted (· < ·)) ∧
    (getAvailableNumbers []).length = 75 := by
  refine ⟨?_, ?_, ?_⟩
  · intro called n
    simp only [getAvailableNumbers]
    constructor
    · intro hmem
      rw [List.mem_filter] at hmem
      obtain ⟨hall, hp⟩ := hmem
      rw [List.mem_map] at hall
      obtain ⟨i, hi, hin⟩ := hall
      rw [List.mem_range] at hi
      rw [Bool.not_eq_true'] at hp
      simp only [List.contains_eq_any_beq, List.any_eq_false, beq_iff_eq] at hp
      refine ⟨by omega, by omega, ?_⟩
      intro c hc hceq
      exact hp c.number (List.mem_map.mpr ⟨c, hc, rfl⟩) hceq.symm
    · rintro ⟨h1, h75, hnc⟩
      rw [List.mem_filter]
      refine ⟨List.mem_map.mpr ⟨(n - 1).toNat, List.mem_range.mpr (by omega), by omega⟩, ?_⟩
      rw [Bool.not_eq_true']
      simp only [List.contains_eq_any_beq, List.any_eq_false, beq_iff_eq]
      intro x hx hnx
      obtain ⟨c, hc, rfl⟩ := List.mem_map.mp hx
      exact hnc c hc hnx.symm
  · intro called
    simp only [getAvailableNumbers]
    exact List.Pairwise.filter _
      (List.Pairwise.map _ (fun a b hab => by show (a : ℤ) + 1 < (b : ℤ) + 1; omega)
        (List.pairwise_lt_range 75))
  · rfl

/-- C10 witness: with only the number 3 called, 5 is still available. -/
theorem getAvailableNumbers_witness :
    (5 : ℤ) ∈ getAvailableNumbers [⟨"", "", 3, Letter.M, ""⟩] :=
  (getAvailableNumbers_spec.1 [⟨"", "", 3, Letter.M, ""⟩] 5).mpr
    ⟨by norm_num, by norm_num, by intro c hc; simp at hc; rw [hc]; norm_num⟩

/-- C5 counterexample: the Timing Model neither rejects invalid domain
inputs nor clamps them before computing.  For the invalid player count
0.1 (< 1), `calculateCallsNeeded` silently computes the formula on the
raw input and returns 60, while any clamp of the input to the safe
minimum 1 would have returned 50; for the invalid calls count -1 (≤ 0),
`calculateSecondsBetweenCalls` silently returns the clamped value 5. -/
theorem timing_guard_counterexample :
    calculateCallsNeeded (1 / 10 : ℝ) = 60 ∧ calculateCallsNeeded 1 = 50 ∧
    calculateSecondsBetweenCalls 15 (-1) = 5 := by
  refine ⟨?_, ?_, by norm_num [calculateSecondsBetweenCalls, round_eq]⟩
  · unfold calculateCallsNeeded
    rw [one_div, Real.logb_inv, Real.logb_self_eq_one (by norm_num : (1 : ℝ) < 10)]
    norm_num
  · unfold calculateCallsNeeded
    rw [Real.logb_one]
    norm_num

/-- C5 amended: on invalid domain inputs (a fractional player count
below 1, a negative calls count) the Timing Model functions signal no
domain error and clamp no input; each computes its formula on the raw
input and clamps only the result, so the returned value always lies in
the output range (`[15, 75]` and `[5, 120]` respectively). -/
theorem timing_no_input_guard (p : ℝ) (hp : 0 < p) (m c : ℚ) (hc : c ≠ 0) :
    (15 ≤ calculateCallsNeeded p ∧ calculateCallsNeeded p ≤ 75 ∧
      calculateCallsNeeded p = max 15 (min 75 ⌈(50 : ℝ) - 10 * Real.logb 10 p⌉)) ∧
    (5 ≤ calculateSecondsBetweenCalls m c ∧ calculateSecondsBetweenCalls m c ≤ 120 ∧
      calculateSecondsBetweenCalls m c = max 5 (min 120 (round (m * 60 * 0.85 / c)))) := by
  constructor
  · exact ⟨le_max_left _ _, max_le (by norm_num) (min_le_left _ _), rfl⟩
  · exact ⟨le_max_left _ _, max_le (by norm_num) (min_le_left _ _), rfl⟩

/-- C5 amended witness: at the invalid inputs player count 0.1 and
calls count -1 the functions still return values in the clamp ranges,
with no error signalled. -/
theorem timing_no_input_guard_witness :
    15 ≤ calculateCallsNeeded (1 / 10 : ℝ) ∧
    5 ≤ calculateSecondsBetweenCalls 15 (-1) :=
  ⟨(timing_no_input_guard (1 / 10) (by norm_num) 15 (-1) (by norm_num)).1.1,
   (timing_no_input_guard (1 / 10) (by norm_num) 15 (-1) (by norm_num)).2.1⟩

/-- C7: `calculateCallsNeeded` is monotonically non-increasing in the
player count, for player counts at least 1. -/
theorem calculateCallsNeeded_antitone (p1 p2 : ℝ) (h1 : 1 ≤ p1) (h12 : p1 ≤ p2) :
    calculateCallsNeeded p2 ≤ calculateCallsNeeded p1 := by
  unfold calculateCallsNeeded
  have hlog : Real.logb 10 p1 ≤ Real.logb 10 p2 :=
    Real.logb_le_logb_of_le (by norm_num) (by linarith) h12
  have hle : (50 : ℝ) - 10 * Real.logb 10 p2 ≤ 50 - 10 * Real.logb 10 p1 := by linarith
  exact max_le_max (le_refl 15) (min_le_min (le_refl 75) (Int.ceil_le_ceil hle))

/-- C7 witness: ten players need at most as many calls as one player. -/
theorem calculateCallsNeeded_antitone_witness :
    calculateCallsNeeded 10 ≤ calculateCallsNeeded 1 :=
  calculateCallsNeeded_antitone 1 10 (by norm_num) (by norm_num)

/-- A well-typed card with all five columns present reaches the grid
loop of `checkWin` whenever the marked list is non-empty. -/
theorem checkWin_cons (m y n g o : List ℤ) (a : ℤ) (t : List ℤ) :
    checkWin ⟨some m, some y, some n, some g, some o⟩ (a :: t)
      = checkWinGrid (gridOf m y n g o) (a :: t) := rfl

/-- Core of C1, on a card destructured into its 24 stored numbers: the
sequential row, column and diagonal loops of `checkWin` compute exactly
the first satisfied line of the spec-side candidate-line list. -/
theorem checkWinGrid_eq_classifyCard
    (m0 m1 m2 m3 m4 y0 y1 y2 y3 y4 n0 n1 n2 n3 g0 g1 g2 g3 g4 o0 o1 o2 o3 o4 : ℤ)
    (marked : List ℤ) :
    checkWinGrid (gridOf [m0,m1,m2,m3,m4] [y0,y1,y2,y3,y4] [n0,n1,n2,n3]
        [g0,g1,g2,g3,g4] [o0,o1,o2,o3,o4]) marked
      = classifyCard [m0,m1,m2,m3,m4] [y0,y1,y2,y3,y4] [n0,n1,n2,n3]
        [g0,g1,g2,g3,g4] [o0,o1,o2,o3,o4] marked := by
  have hrow : ∀ i ∈ List.range 5,
      (fun row => checkLine (gridOf [m0,m1,m2,m3,m4] [y0,y1,y2,y3,y4] [n0,n1,n2,n3]
          [g0,g1,g2,g3,g4] [o0,o1,o2,o3,o4]) marked row LineType.row) i
        = ((lineSatisfied [m0,m1,m2,m3,m4] [y0,y1,y2,y3,y4] [n0,n1,n2,n3]
            [g0,g1,g2,g3,g4] [o0,o1,o2,o3,o4] marked) ∘
              (fun i => LineSpec.mk WinPattern.row i)) i := by
    intro i hi
    fin_cases hi <;> rfl
  have hcol : ∀ i ∈ List.range 5,
      (fun col => checkLine (gridOf [m0,m1,m2,m3,m4] [y0,y1,y2,y3,y4] [n0,n1,n2,n3]
          [g0,g1,g2,g3,g4] [o0,o1,o2,o3,o4]) marked col LineType.column) i
        = ((lineSatisfied [m0,m1,m2,m3,m4] [y0,y1,y2,y3,y4] [n0,n1,n2,n3]
            [g0,g1,g2,g3,g4] [o0,o1,o2,o3,o4] marked) ∘
              (fun i => LineSpec.mk WinPattern.column i)) i := by
    intro i hi
    fin_cases hi <;> rfl
  unfold classifyCard allLines
  rw [List.find?_append, List.find?_append, List.find?_map, List.find?_map,
    ← find?_congr hrow, ← find?_congr hcol]
  unfold checkWinGrid
  cases hr : (List.range 5).find? (fun row => checkLine (gridOf [m0,m1,m2,m3,m4]
      [y0,y1,y2,y3,y4] [n0,n1,n2,n3] [g0,g1,g2,g3,g4] [o0,o1,o2,o3,o4]) marked row
        LineType.row) with
  | some r => simp
  | none =>
    simp only [Option.map_none', Option.none_or]
    cases hc : (List.range 5).find? (fun col => checkLine (gridOf [m0,m1,m2,m3,m4]
        [y0,y1,y2,y3,y4] [n0,n1,n2,n3] [g0,g1,g2,g3,g4] [o0,o1,o2,o3,o4]) marked col
          LineType.column) with
    | some c => simp
    | none =>
      simp only [Option.map_none', Option.none_or]
      rw [show checkDiagonal (gridOf [m0,m1,m2,m3,m4] [y0,y1,y2,y3,y4] [n0,n1,n2,n3]
          [g0,g1,g2,g3,g4] [o0,o1,o2,o3,o4]) marked DiagType.main
        = lineSatisfied [m0,m1,m2,m3,m4] [y0,y1,y2,y3,y4] [n0,n1,n2,n3]
            [g0,g1,g2,g3,g4] [o0,o1,o2,o3,o4] marked ⟨WinPattern.diagonal, 0⟩ from rfl]
      rw [show checkDiagonal (gridOf [m0,m1,m2,m3,m4] [y0,y1,y2,y3,y4] [n0,n1,n2,n3]
          [g0,g1,g2,g3,g4] [o0,o1,o2,o3,o4]) marked DiagType.anti
        = lineSatisfied [m0,m1,m2,m3,m4] [y0,y1,y2,y3,y4] [n0,n1,n2,n3]
            [g0,g1,g2,g3,g4] [o0,o1,o2,o3,o4] marked ⟨WinPattern.diagonal, 1⟩ from rfl]
      cases hd0 : lineSatisfied [m0,m1,m2,m3,m4] [y0,y1,y2,y3,y4] [n0,n1,n2,n3]
          [g0,g1,g2,g3,g4] [o0,o1,o2,o3,o4] marked ⟨WinPattern.diagonal, 0⟩ with
      | true => simp [List.find?_cons_of_pos _ hd0]
      | false =>
        rw [List.find?_cons_of_neg _ (by simp [hd0])]
        cases hd1 : lineSatisfied [m0,m1,m2,m3,m4] [y0,y1,y2,y3,y4] [n0,n1,n2,n3]
            [g0,g1,g2,g3,g4] [o0,o1,o2,o3,o4] marked ⟨WinPattern.diagonal, 1⟩ with
        | true => simp [List.find?_cons_of_pos _ hd1]
        | false =>
          rw [List.find?_cons_of_neg _ (by simp [hd1])]
          rfl

/-- C1: for every well-formed card (five stored columns of lengths
5, 5, 4, 5, 5) and every marked list, `checkWin` builds the 5x5 grid
positionally with the free cell at row 2 of the N column, tests rows
0-4, then columns 0-4, then the main diagonal, then the anti diagonal,
counts a cell satisfied exactly when it is the free cell or its number
is marked, and returns the first fully satisfied line tagged with its
kind and index, or no-win when no line is fully satisfied — the
spec-side `classifyCard`. -/
theorem checkWin_eq_classifyCard (card : MyngoCard) (m y n g o marked : List ℤ)
    (hM : card.M = some m) (hY : card.Y = some y) (hN : card.N = some n)
    (hG : card.G = some g) (hO : card.O = some o)
    (hm : m.length = 5) (hy : y.length = 5) (hn : n.length = 4)
    (hg : g.length = 5) (ho : o.length = 5) :
    checkWin card marked = classifyCard m y n g o marked := by
  obtain ⟨m0, m1, m2, m3, m4, rfl⟩ := length_eq_five hm
  obtain ⟨y0, y1, y2, y3, y4, rfl⟩ := length_eq_five hy
  obtain ⟨n0, n1, n2, n3, rfl⟩ := length_eq_four hn
  obtain ⟨g0, g1, g2, g3, g4, rfl⟩ := length_eq_five hg
  obtain ⟨o0, o1, o2, o3, o4, rfl⟩ := length_eq_five ho
  obtain ⟨cM, cY, cN, cG, cO⟩ := card
  dsimp only at hM hY hN hG hO
  subst hM hY hN hG hO
  rcases marked with _ | ⟨a, t⟩
  · rfl
  · rw [checkWin_cons, checkWinGrid_eq_classifyCard]

/-- C1 witness: on a concrete card with row 0 fully marked, `checkWin`
agrees with the spec classifier and reports the row-0 win. -/
theorem checkWin_eq_classifyCard_witness :
    checkWin ⟨some [1,2,3,4,5], some [16,17,18,19,20], some [31,32,33,34],
        some [46,47,48,49,50], some [61,62,63,64,65]⟩ [1,16,31,46,61]
      = classifyCard [1,2,3,4,5] [16,17,18,19,20] [31,32,33,34]
          [46,47,48,49,50] [61,62,63,64,65] [1,16,31,46,61] ∧
    checkWin ⟨some [1,2,3,4,5], some [16,17,18,19,20], some [31,32,33,34],
        some [46,47,48,49,50], some [61,62,63,64,65]⟩ [1,16,31,46,61]
      = WinResult.win WinPattern.row 0 :=
  ⟨checkWin_eq_classifyCard ⟨some [1,2,3,4,5], some [16,17,18,19,20], some [31,32,33,34],
        some [46,47,48,49,50], some [61,62,63,64,65]⟩ [1,2,3,4,5] [16,17,18,19,20]
      [31,32,33,34] [46,47,48,49,50] [61,62,63,64,65] [1,16,31,46,61]
      rfl rfl rfl rfl rfl rfl rfl rfl rfl rfl,
   by decide⟩

/-- A well-typed card with all five columns present reaches the
candidate-line loop of `isCloseToWin` whenever the marked list is
non-empty. -/
theorem isCloseToWin_cons (m y n g o : List ℤ) (a : ℤ) (t : List ℤ) :
    isCloseToWin ⟨some m, some y, some n, some g, some o⟩ (a :: t)
      = allLines.any (fun line => unmarkedCount (gridOf m y n g o) (a :: t) line == 1) := rfl

/-- The per-line unmarked count of the code equals the spec-side count
over the line coordinates, for every candidate line. -/
theorem unmarkedCount_eq_lineUnmarked
    (m0 m1 m2 m3 m4 y0 y1 y2 y3 y4 n0 n1 n2 n3 g0 g1 g2 g3 g4 o0 o1 o2 o3 o4 : ℤ)
    (marked : List ℤ) (L : LineSpec) (hL : L ∈ allLines) :
    unmarkedCount (gridOf [m0,m1,m2,m3,m4] [y0,y1,y2,y3,y4] [n0,n1,n2,n3]
        [g0,g1,g2,g3,g4] [o0,o1,o2,o3,o4]) marked L
      = lineUnmarked [m0,m1,m2,m3,m4] [y0,y1,y2,y3,y4] [n0,n1,n2,n3]
          [g0,g1,g2,g3,g4] [o0,o1,o2,o3,o4] marked L := by
  rw [unmarkedCount, lineUnmarked, ← List.countP_eq_length_filter]
  fin_cases hL <;>
    simp only [lineCoords, reduceIte] <;>
    first
    | (rw [List.countP_map]
       exact List.countP_congr (fun i hi => by fin_cases hi <;> exact Iff.rfl))
    | (conv_rhs =>
         change List.countP (fun p : ℕ × ℕ =>
           match specGridCell [m0,m1,m2,m3,m4] [y0,y1,y2,y3,y4] [n0,n1,n2,n3]
               [g0,g1,g2,g3,g4] [o0,o1,o2,o3,o4] p.1 p.2 with
           | none => false
           | some v => !marked.contains v)
           (List.map (fun i : ℕ => (i, 4 - i)) (List.range 5))
       rw [List.countP_map]
       exact List.countP_congr (fun i hi => by fin_cases hi <;> exact Iff.rfl))

/-- The any-loop of `isCloseToWin` can be restated over the spec-side
counts, line by line. -/
theorem any_unmarkedCount_eq
    (m0 m1 m2 m3 m4 y0 y1 y2 y3 y4 n0 n1 n2 n3 g0 g1 g2 g3 g4 o0 o1 o2 o3 o4 : ℤ)
    (marked : List ℤ) :
    (allLines.any (fun line => unmarkedCount (gridOf [m0,m1,m2,m3,m4] [y0,y1,y2,y3,y4]
        [n0,n1,n2,n3] [g0,g1,g2,g3,g4] [o0,o1,o2,o3,o4]) marked line == 1))
      = allLines.any (fun line => lineUnmarked [m0,m1,m2,m3,m4] [y0,y1,y2,y3,y4]
          [n0,n1,n2,n3] [g0,g1,g2,g3,g4] [o0,o1,o2,o3,o4] marked line == 1) :=
  any_congr (fun L hL => congrArg (· == 1)
    (unmarkedCount_eq_lineUnmarked m0 m1 m2 m3 m4 y0 y1 y2 y3 y4 n0 n1 n2 n3
      g0 g1 g2 g3 g4 o0 o1 o2 o3 o4 marked L hL))

/-- C2: for every well-formed card and every marked list,
`isCloseToWin` returns true exactly when at least one of the 12
candidate lines (5 rows, 5 columns, 2 diagonals) contains exactly one
cell that is neither the free cell nor marked. -/
theorem isCloseToWin_iff (card : MyngoCard) (m y n g o marked : List ℤ)
    (hM : card.M = some m) (hY : card.Y = some y) (hN : card.N = some n)
    (hG : card.G = some g) (hO : card.O = some o)
    (hm : m.length = 5) (hy : y.length = 5) (hn : n.length = 4)
    (hg : g.length = 5) (ho : o.length = 5) :
    isCloseToWin card marked = true ↔
      ∃ line ∈ allLines, lineUnmarked m y n g o marked line = 1 := by
  obtain ⟨m0, m1, m2, m3, m4, rfl⟩ := length_eq_five hm
  obtain ⟨y0, y1, y2, y3, y4, rfl⟩ := length_eq_five hy
  obtain ⟨n0, n1, n2, n3, rfl⟩ := length_eq_four hn
  obtain ⟨g0, g1, g2, g3, g4, rfl⟩ := length_eq_five hg
  obtain ⟨o0, o1, o2, o3, o4, rfl⟩ := length_eq_five ho
  obtain ⟨cM, cY, cN, cG, cO⟩ := card
  dsimp only at hM hY hN hG hO
  subst hM hY hN hG hO
  rcases marked with _ | ⟨a, t⟩
  · have hno : ∀ L ∈ allLines, lineUnmarked [m0,m1,m2,m3,m4] [y0,y1,y2,y3,y4]
        [n0,n1,n2,n3] [g0,g1,g2,g3,g4] [o0,o1,o2,o3,o4] [] L ≠ 1 := by
      intro L hL
      fin_cases hL <;>
        first
        | exact (by norm_num : (5 : ℕ) ≠ 1)
        | exact (by norm_num : (4 : ℕ) ≠ 1)
    constructor
    · intro h
      exact Bool.noConfusion h
    · rintro ⟨L, hL, h1⟩
      exact absurd h1 (hno L hL)
  · rw [isCloseToWin_cons, any_unmarkedCount_eq, List.any_eq_true]
    simp only [beq_iff_eq]

/-- C2 witness: on a concrete card with row 0 marked except one cell,
`isCloseToWin` reports a near win. -/
theorem isCloseToWin_iff_witness :
    isCloseToWin ⟨some [1,2,3,4,5], some [16,17,18,19,20], some [31,32,33,34],
        some [46,47,48,49,50], some [61,62,63,64,65]⟩ [1,16,31,46] = true :=
  (isCloseToWin_iff ⟨some [1,2,3,4,5], some [16,17,18,19,20], some [31,32,33,34],
        some [46,47,48,49,50], some [61,62,63,64,65]⟩ [1,2,3,4,5] [16,17,18,19,20]
      [31,32,33,34] [46,47,48,49,50] [61,62,63,64,65] [1,16,31,46]
      rfl rfl rfl rfl rfl rfl rfl rfl rfl rfl).mpr
    ⟨⟨WinPattern.row, 0⟩, by decide, by decide⟩

/-- A card with any of its five columns missing makes `cardToArray`
throw. -/
theorem cardToArray_error_of_missing (card : MyngoCard)
    (h : card.M = none ∨ card.Y = none ∨ card.N = none ∨ card.G = none ∨ card.O = none) :
    cardToArray card = Except.error "Invalid card structure" := by
  obtain ⟨cM, cY, cN, cG, cO⟩ := card
  cases cM <;> cases cY <;> cases cN <;> cases cG <;> cases cO <;>
    first
    | rfl
    | (dsimp only at h
       rcases h with h | h | h | h | h <;> exact Option.noConfusion h)

/-- C4 amended: for a card missing one of its five columns, both
classification functions catch the `cardToArray` throw and fail closed
(`checkWin` reports no-win, `isCloseToWin` reports false) for every
marked list; neither function throws. -/
theorem failClosed_of_missing_column (card : MyngoCard) (marked : List ℤ)
    (h : card.M = none ∨ card.Y = none ∨ card.N = none ∨ card.G = none ∨ card.O = none) :
    checkWin card marked = WinResult.noWin ∧ isCloseToWin card marked = false := by
  have he := cardToArray_error_of_missing card h
  constructor
  · simp [checkWin, he]
  · simp [isCloseToWin, he]

/-- C4 amended witness: a card with a missing M column fails closed. -/
theorem failClosed_of_missing_column_witness :
    checkWin ⟨none, some [16,17,18,19,20], some [31,32,33,34], some [46,47,48,49,50],
        some [61,62,63,64,65]⟩ [1] = WinResult.noWin ∧
    isCloseToWin ⟨none, some [16,17,18,19,20], some [31,32,33,34], some [46,47,48,49,50],
        some [61,62,63,64,65]⟩ [1] = false :=
  failClosed_of_missing_column ⟨none, some [16,17,18,19,20], some [31,32,33,34],
    some [46,47,48,49,50], some [61,62,63,64,65]⟩ [1] (Or.inl rfl)

/-- C4 counterexample: a malformed card whose M column has the wrong
length 4 is NOT failed closed: reads past the end of the column behave
as unmarked cells, so `checkWin` still reports a win on the intact row
0 (not `{hasWin:false}` as the claim states), and `isCloseToWin` still
reports true; only the no-throw part of the claim holds. -/
theorem wrong_length_not_fail_closed :
    checkWin ⟨some [1,2,3,4], some [16,17,18,19,20], some [31,32,33,34],
        some [46,47,48,49,50], some [61,62,63,64,65]⟩ [1,16,31,46,61]
      = WinResult.win WinPattern.row 0 ∧
    checkWin ⟨some [1,2,3,4], some [16,17,18,19,20], some [31,32,33,34],
        some [46,47,48,49,50], some [61,62,63,64,65]⟩ [1,16,31,46,61]
      ≠ WinResult.noWin ∧
    isCloseToWin ⟨some [1,2,3,4], some [16,17,18,19,20], some [31,32,33,34],
        some [46,47,48,49,50], some [61,62,63,64,65]⟩ [16,31,46,61] = true :=
  ⟨by decide, by decide, by decide⟩

/-- C8: for every card missing at least one column and every non-empty
marked list, the legacy function `isCloseToWinLegacy` propagates the
`Invalid card structure` throw (it has no catch), while `isCloseToWin`
on the same inputs returns false without throwing. -/
theorem isCloseToWinLegacy_throws (card : MyngoCard) (marked : List ℤ)
    (hmiss : card.M = none ∨ card.Y = none ∨ card.N = none ∨ card.G = none ∨ card.O = none)
    (hne : marked ≠ []) :
    isCloseToWinLegacy card marked = Except.error "Invalid card structure" ∧
    isCloseToWin card marked = false := by
  have he := cardToArray_error_of_missing card hmiss
  rcases marked with _ | ⟨a, t⟩
  · exact absurd rfl hne
  · constructor
    · simp [isCloseToWinLegacy, he]
    · simp [isCloseToWin, he]

/-- C8 witness: the all-columns-missing card with one marked number
makes the legacy function throw while `isCloseToWin` returns false. -/
theorem isCloseToWinLegacy_throws_witness :
    isCloseToWinLegacy ⟨none, none, none, none, none⟩ [1]
      = Except.error "Invalid card structure" ∧
    isCloseToWin ⟨none, none, none, none, none⟩ [1] = false :=
  isCloseToWinLegacy_throws ⟨none, none, none, none, none⟩ [1] (Or.inl rfl) (by decide)

/-- The splice loop returns exactly as many numbers as requested when
enough candidates remain. -/
theorem pickNums_length : ∀ (k : ℕ) (avail : List ℤ) (rs : List ℕ),
    k ≤ avail.length → (pickNums k avail rs).length = k := by
  intro k
  induction k with
  | zero => intro avail rs h; rfl
  | succ n ih =>
    intro avail rs h
    have hpos : 0 < avail.length := by omega
    have hi : rs.headD 0 % avail.length < avail.length := Nat.mod_lt _ hpos
    simp only [pickNums, List.length_cons]
    rw [ih]
    rw [List.length_eraseIdx, if_pos hi]
    omega

/-- Every number the splice loop returns comes from the candidate
pool. -/
theorem pickNums_subset : ∀ (k : ℕ) (avail : List ℤ) (rs : List ℕ),
    k ≤ avail.length → ∀ x ∈ pickNums k avail rs, x ∈ avail := by
  intro k
  induction k with
  | zero => intro avail rs h x hx; exact absurd hx (by simp [pickNums])
  | succ n ih =>
    intro avail rs h x hx
    have hpos : 0 < avail.length := by omega
    have hi : rs.headD 0 % avail.length < avail.length := Nat.mod_lt _ hpos
    simp only [pickNums, List.mem_cons] at hx
    rcases hx with rfl | hx
    · rw [List.getD_eq_getElem _ _ hi]
      exact List.getElem_mem hi
    · have hlen : n ≤ (avail.eraseIdx (rs.headD 0 % avail.length)).length := by
        rw [List.length_eraseIdx, if_pos hi]; omega
      exact List.mem_of_mem_eraseIdx (ih _ _ hlen x hx)

/-- The splice loop never returns a duplicate: each selected element is
removed from the pool before the next draw. -/
theorem pickNums_nodup : ∀ (k : ℕ) (avail : List ℤ) (rs : List ℕ),
    k ≤ avail.length → avail.Nodup → (pickNums k avail rs).Nodup := by
  intro k
  induction k with
  | zero => intro avail rs h hnd; simp [pickNums]
  | succ n ih =>
    intro avail rs h hnd
    have hpos : 0 < avail.length := by omega
    have hi : rs.headD 0 % avail.length < avail.length := Nat.mod_lt _ hpos
    have hlen : n ≤ (avail.eraseIdx (rs.headD 0 % avail.length)).length := by
      rw [List.length_eraseIdx, if_pos hi]; omega
    simp only [pickNums, List.nodup_cons]
    refine ⟨?_, ih _ _ hlen (hnd.eraseIdx _)⟩
    intro hmem
    have hsub := pickNums_subset n _ (rs.tailD []) hlen _ hmem
    rw [List.getD_eq_getElem _ _ hi] at hsub
    rw [← hnd.erase_getElem _ hi] at hsub
    exact hnd.not_mem_erase hsub

/-- Properties of one sampled column: requested length, no duplicates,
values inside the sub-range, and ascending order after the sort. -/
theorem getRandomNumbers_props (lo hi count : ℕ) (rs : List ℕ)
    (hlo : 1 ≤ lo) (hhi : lo ≤ hi) (hcount : count ≤ hi - lo + 1) :
    (getRandomNumbers lo hi count rs).length = count ∧
    (getRandomNumbers lo hi count rs).Nodup ∧
    (∀ x ∈ getRandomNumbers lo hi count rs, (lo : ℤ) ≤ x ∧ x ≤ (hi : ℤ)) ∧
    (getRandomNumbers lo hi count rs).Sorted (· < ·) := by
  have havlen : ((List.range (hi - lo + 1)).map (fun i : ℕ => (lo : ℤ) + (i : ℤ))).length
      = hi - lo + 1 := by
    rw [List.length_map, List.length_range]
  have havnd : ((List.range (hi - lo + 1)).map (fun i : ℕ => (lo : ℤ) + (i : ℤ))).Nodup :=
    List.Nodup.map (fun a b hab => by omega) (List.nodup_range _)
  have hperm := List.mergeSort_perm
    (pickNums count ((List.range (hi - lo + 1)).map (fun i : ℕ => (lo : ℤ) + (i : ℤ))) rs)
    (fun a b => a ≤ b)
  have hcount2 : count ≤ ((List.range (hi - lo + 1)).map
      (fun i : ℕ => (lo : ℤ) + (i : ℤ))).length := by rw [havlen]; exact hcount
  have hnd : (getRandomNumbers lo hi count rs).Nodup := by
    rw [getRandomNumbers, hperm.nodup_iff]
    exact pickNums_nodup count _ rs hcount2 havnd
  refine ⟨?_, hnd, ?_, ?_⟩
  · rw [getRandomNumbers, hperm.length_eq, pickNums_length count _ rs hcount2]
  · intro x hx
    rw [getRandomNumbers, hperm.mem_iff] at hx
    have := pickNums_subset count _ rs hcount2 x hx
    rw [List.mem_map] at this
    obtain ⟨i, hir, rfl⟩ := this
    rw [List.mem_range] at hir
    constructor
    · omega
    · have : (i : ℤ) ≤ ((hi - lo : ℕ) : ℤ) := by exact_mod_cast by omega
      push_cast at this ⊢
      omega
  · have hsorted : (getRandomNumbers lo hi count rs).Sorted (· ≤ ·) := by
      have := @List.sorted_mergeSort ℤ (fun a b => decide (a ≤ b))
        (fun a b c hab hbc => by simp at hab hbc ⊢; omega)
        (fun a b => by simpa using le_total a b)
        (pickNums count ((List.range (hi - lo + 1)).map (fun i : ℕ => (lo : ℤ) + (i : ℤ))) rs)
      exact this.imp (fun h => by simpa using h)
    exact hsorted.lt_of_le hnd

/-- C3: every card the generator produces, for any injected random
index choices, has columns M, Y, G, O of 5 numbers in [1,15], [16,30],
[46,60], [61,75] and column N of exactly 4 numbers in [31,45], each
column sorted ascending, and no number occurring twice anywhere on the
card. -/
theorem generateMyngoCard_valid (rM rY rN rG rO : List ℕ) :
    ∃ m y n g o, generateMyngoCard rM rY rN rG rO
        = ⟨some m, some y, some n, some g, some o⟩ ∧
      m.length = 5 ∧ y.length = 5 ∧ n.length = 4 ∧ g.length = 5 ∧ o.length = 5 ∧
      (∀ x ∈ m, 1 ≤ x ∧ x ≤ 15) ∧ (∀ x ∈ y, 16 ≤ x ∧ x ≤ 30) ∧
      (∀ x ∈ n, 31 ≤ x ∧ x ≤ 45) ∧ (∀ x ∈ g, 46 ≤ x ∧ x ≤ 60) ∧
      (∀ x ∈ o, 61 ≤ x ∧ x ≤ 75) ∧
      m.Sorted (· < ·) ∧ y.Sorted (· < ·) ∧ n.Sorted (· < ·) ∧
      g.Sorted (· < ·) ∧ o.Sorted (· < ·) ∧
      (m ++ y ++ n ++ g ++ o).Nodup := by
  obtain ⟨hmlen, hmnd, hmrange, hmsort⟩ :=
    getRandomNumbers_props 1 15 5 rM (by norm_num) (by norm_num) (by norm_num)
  obtain ⟨hylen, hynd, hyrange, hysort⟩ :=
    getRandomNumbers_props 16 30 5 rY (by norm_num) (by norm_num) (by norm_num)
  obtain ⟨hnlen, hnnd, hnrange, hnsort⟩ :=
    getRandomNumbers_props 31 45 4 rN (by norm_num) (by norm_num) (by norm_num)
  obtain ⟨hglen, hgnd, hgrange, hgsort⟩ :=
    getRandomNumbers_props 46 60 5 rG (by norm_num) (by norm_num) (by norm_num)
  obtain ⟨holen, hond, horange, hosort⟩ :=
    getRandomNumbers_props 61 75 5 rO (by norm_num) (by norm_num) (by norm_num)
  refine ⟨_, _, _, _, _, rfl, hmlen, hylen, hnlen, hglen, holen, ?_, ?_, ?_, ?_, ?_,
    hmsort, hysort, hnsort, hgsort, hosort, ?_⟩
  · intro x hx; have := hmrange x hx; exact_mod_cast this
  · intro x hx; have := hyrange x hx; exact_mod_cast this
  · intro x hx; have := hnrange x hx; exact_mod_cast this
  · intro x hx; have := hgrange x hx; exact_mod_cast this
  · intro x hx; have := horange x hx; exact_mod_cast this
  · rw [List.nodup_append, List.nodup_append, List.nodup_append, List.nodup_append]
    refine ⟨⟨⟨⟨hmnd, hynd, ?_⟩, hnnd, ?_⟩, hgnd, ?_⟩, hond, ?_⟩
    · rw [List.disjoint_left]
      intro a ha hb
      have h1 := hmrange a ha
      have h2 := hyrange a hb
      push_cast at h1 h2
      omega
    · rw [List.disjoint_left]
      intro a ha hb
      rw [List.mem_append] at ha
      have h2 := hnrange a hb
      rcases ha with ha | ha
      · have h1 := hmrange a ha
        push_cast at h1 h2
        omega
      · have h1 := hyrange a ha
        push_cast at h1 h2
        omega
    · rw [List.disjoint_left]
      intro a ha hb
      rw [List.mem_append, List.mem_append] at ha
      have h2 := hgrange a hb
      rcases ha with (ha | ha) | ha
      · have h1 := hmrange a ha
        push_cast at h1 h2
        omega
      · have h1 := hyrange a ha
        push_cast at h1 h2
        omega
      · have h1 := hnrange a ha
        push_cast at h1 h2
        omega
    · rw [List.disjoint_left]
      intro a ha hb
      rw [List.mem_append, List.mem_append, List.mem_append] at ha
      have h2 := horange a hb
      rcases ha with ((ha | ha) | ha) | ha
      · have h1 := hmrange a ha
        push_cast at h1 h2
        omega
      · have h1 := hyrange a ha
        push_cast at h1 h2
        omega
      · have h1 := hnrange a ha
        push_cast at h1 h2
        omega
      · have h1 := hgrange a ha
        push_cast at h1 h2
        omega

end Myngo
